import Mathlib

/-!
Verification of the Exposure-Correcting Frame Pipeline
(`src/main.py`, function `analizza_e_modifica_video`).

The program opens an input video, iterates its frames in order, analyses
every `frame_interval`-th frame's mean luminance, conditionally rescales
the pixel intensities of under- or over-exposed sampled frames, writes every
frame (modified or not) to the output video, and releases the two stream
handles on the normal-completion path.

Shallow embedding conventions:
* a `Frame` is the list of its pixels (the 2-D geometry plays no role in
  the verified properties); each pixel is a B,G,R triple of naturals,
  8-bit in intended use;
* floating-point quantities of the source (frame rate, mean luminance,
  correction factor) are modelled as rationals;
* the external Media I/O Facility calls (`cv2.cvtColor`+`np.mean`,
  `cv2.convertScaleAbs`) are modelled from the spec, which fixes their
  contract (grayscale reduction averaged over all pixels; saturating
  per-pixel affine transform clamped to `[0,255]`);
* the fallible parts (open failures, the Python `ZeroDivisionError`
  raised by `int(fps / fps_analisi)` when `fps_analisi = 0`) are encoded
  in an explicit `RunResult` record carrying an `Option PipelineError`
  together with observable side effects (output creation, frames written,
  handle releases).
-/

/-- One pixel: an (B, G, R) triple of channel intensities. -/
structure Pixel where
  b : ℕ
  g : ℕ
  r : ℕ
deriving DecidableEq

/-- A frame is the list of its pixels. -/
abbrev Frame := List Pixel

/-- Clamp an integer into the 8-bit range `[0, 255]` (saturating cast). -/
def clamp255 (z : ℤ) : ℕ :=
  (max 0 (min 255 z)).toNat

/-- Modelled from the spec: the Media I/O Facility's saturating per-pixel
affine transform on a single channel with `beta = 0`:
`clamp(round(alpha * input), 0, 255)` (the semantics of
`cv2.convertScaleAbs` used by the source with `beta=0` and `alpha ≥ 0`). -/
def scaleChannel (alpha : ℚ) (c : ℕ) : ℕ :=
  clamp255 (round (alpha * (c : ℚ)))

/-- Modelled from the spec: `cv2.convertScaleAbs frame alpha 0` applies the
saturating scaling independently to every channel of every pixel. -/
def convertScaleAbs (alpha : ℚ) (f : Frame) : Frame :=
  f.map fun p => ⟨scaleChannel alpha p.b, scaleChannel alpha p.g, scaleChannel alpha p.r⟩

/-- Modelled from the spec: the grayscale value of one pixel, a standard
BGR→luminance reduction with the usual weights, rounded to an 8-bit
integer (the semantics of `cv2.cvtColor frame COLOR_BGR2GRAY` per pixel). -/
def grayValue (p : Pixel) : ℤ :=
  round (((299 * p.r + 587 * p.g + 114 * p.b : ℕ) : ℚ) / 1000)

/-- Modelled from the spec: `np.mean` of the grayscale image — the average
gray value over all pixels of the frame, as an exact rational. -/
def meanLuminance (f : Frame) : ℚ :=
  ((f.map grayValue).sum : ℚ) / (f.length : ℚ)

/-- The tunable parameters of `analizza_e_modifica_video`
(source defaults: `fps_analisi=1`, thresholds `80`/`180`, factor `1.2`). -/
structure Config where
  fps_analisi : ℚ
  soglia_sottoesposizione : ℚ
  soglia_sovraesposizione : ℚ
  fattore_correzione : ℚ

/-- The input video as seen through `cv2.VideoCapture`: whether it opens,
its native frame rate, and its frames in read order. -/
structure VideoInput where
  openable : Bool
  fps : ℚ
  frames : List Frame

/-- The error conditions a run can hit: the two open failures reported by
the source, and the uncaught Python `ZeroDivisionError` from
`int(fps / fps_analisi)` when `fps_analisi = 0`. -/
inductive PipelineError where
  | inputOpenError
  | outputOpenError
  | divisionByZero
deriving DecidableEq

/-- The observable outcome of one call to `analizza_e_modifica_video`:
whether the output sink was created, the frames written to it in order,
whether `cap.release()` / `out.release()` were executed, and the error
(if any) the run ended with. -/
structure RunResult where
  outputCreated : Bool
  outputFrames : List Frame
  inputReleased : Bool
  outputReleased : Bool
  error : Option PipelineError
deriving DecidableEq

/-- Python's `int()` on a rational: truncation toward zero. -/
def pyInt (x : ℚ) : ℤ :=
  if 0 ≤ x then ⌊x⌋ else -⌊-x⌋

/-- Source lines 46-48: `frame_interval = int(fps / fps_analisi)`, then
clamped up to `1` when it is below `1`. Only called with
`fps_analisi ≠ 0` (the zero case raises before reaching the clamp). -/
def frame_interval (fps fps_analisi : ℚ) : ℕ :=
  let k := pyInt (fps / fps_analisi)
  if k < 1 then 1 else k.toNat

/-- Source lines 58-79: the per-sampled-frame analysis and correction.
Compute the mean luminance; brighten with gain `fattore_correzione` when
it is strictly below `soglia_sottoesposizione`, darken with gain
`1/fattore_correzione` when it is strictly above
`soglia_sovraesposizione`, otherwise leave the frame unchanged. -/
def correctFrame (cfg : Config) (frame : Frame) : Frame :=
  let luminosita_media := meanLuminance frame
  if luminosita_media < cfg.soglia_sottoesposizione then
    convertScaleAbs cfg.fattore_correzione frame
  else if cfg.soglia_sovraesposizione < luminosita_media then
    convertScaleAbs (1 / cfg.fattore_correzione) frame
  else
    frame

/-- One iteration of the loop body for the frame at zero-based index `i`:
frames with `i % frame_interval = 0` are analysed (and possibly
corrected), all others pass through verbatim (source lines 58-84). -/
def processFrame (cfg : Config) (interval : ℕ) (i : ℕ) (frame : Frame) : Frame :=
  if i % interval = 0 then correctFrame cfg frame else frame

/-- Source lines 50-85: the `while True` read/analyse/write loop, started
at frame counter `i`, consuming the remaining input frames in order and
producing the frames written to the output in order. -/
def writeLoop (cfg : Config) (interval : ℕ) : ℕ → List Frame → List Frame
  | _, [] => []
  | i, f :: rest => processFrame cfg interval i f :: writeLoop cfg interval (i + 1) rest

/-- The whole of `analizza_e_modifica_video` (source lines 5-91).
Control flow, in source order:
1. open the input; if that fails, print and return — no output sink ever
   exists and no release call runs (lines 20-24);
2. create the output sink; if it cannot be opened, print and return —
   `cap.release()` is NOT called on this path (lines 33-37);
3. compute `frame_interval = int(fps / fps_analisi)` (line 46); when
   `fps_analisi = 0` this raises an uncaught `ZeroDivisionError`, so the
   function aborts with the output already created and neither handle
   released;
4. run the frame loop to exhaustion, then release both handles
   (lines 50-89). -/
def analizza_e_modifica_video (inp : VideoInput) (outOpenable : Bool) (cfg : Config) :
    RunResult :=
  if !inp.openable then
    { outputCreated := false, outputFrames := [], inputReleased := false,
      outputReleased := false, error := some PipelineError.inputOpenError }
  else if !outOpenable then
    { outputCreated := false, outputFrames := [], inputReleased := false,
      outputReleased := false, error := some PipelineError.outputOpenError }
  else if cfg.fps_analisi = 0 then
    { outputCreated := true, outputFrames := [], inputReleased := false,
      outputReleased := false, error := some PipelineError.divisionByZero }
  else
    { outputCreated := true,
      outputFrames := writeLoop cfg (frame_interval inp.fps cfg.fps_analisi) 0 inp.frames,
      inputReleased := true, outputReleased := true, error := none }

/-- A frame of `n` identical pixels of channel intensity `v` on all three
channels (the shape of the fixture frames of the source's example driver). -/
def uniformFrame (n v : ℕ) : Frame :=
  List.replicate n ⟨v, v, v⟩

/-! ### Helper lemmas shared by the claim theorems -/

/-- The write loop emits exactly one output frame per input frame. -/
lemma writeLoop_length (cfg : Config) (interval : ℕ) :
    ∀ (i : ℕ) (frames : List Frame),
      (writeLoop cfg interval i frames).length = frames.length := by
  intro i frames
  induction frames generalizing i with
  | nil => simp [writeLoop]
  | cons f rest ih => simp [writeLoop, ih]

/-- The `j`-th frame the write loop started at counter `i` emits is the
processed `j`-th remaining input frame, at loop counter `i + j`. -/
lemma writeLoop_getElem (cfg : Config) (interval : ℕ) :
    ∀ (frames : List Frame) (i j : ℕ) (f : Frame),
      frames[j]? = some f →
      (writeLoop cfg interval i frames)[j]? =
        some (processFrame cfg interval (i + j) f) := by
  intro frames
  induction frames with
  | nil => intro i j f h; simp at h
  | cons a rest ih =>
    intro i j f h
    cases j with
    | zero =>
      simp at h
      subst h
      simp [writeLoop]
    | succ k =>
      simp only [List.getElem?_cons_succ] at h
      have hrec := ih (i + 1) k f h
      simp only [writeLoop, List.getElem?_cons_succ]
      rw [hrec]
      have : i + 1 + k = i + (k + 1) := by omega
      rw [this]

/-- When both opens succeed and `fps_analisi ≠ 0`, the run reaches the
frame loop and completes normally. -/
lemma run_normal (inp : VideoInput) (outOpenable : Bool) (cfg : Config)
    (h1 : inp.openable = true) (h2 : outOpenable = true)
    (h3 : cfg.fps_analisi ≠ 0) :
    analizza_e_modifica_video inp outOpenable cfg =
      { outputCreated := true,
        outputFrames :=
          writeLoop cfg (frame_interval inp.fps cfg.fps_analisi) 0 inp.frames,
        inputReleased := true, outputReleased := true, error := none } := by
  simp [analizza_e_modifica_video, h1, h2, h3]

/-- A uniformly-colored frame with `n > 0` pixels of intensity `v` on all
channels measures mean luminance exactly `v`. -/
lemma meanLuminance_uniform (n v : ℕ) (hn : 0 < n) :
    meanLuminance (uniformFrame n v) = (v : ℚ) := by
  have hgray : grayValue ⟨v, v, v⟩ = (v : ℤ) := by
    unfold grayValue
    have h1 : ((299 * v + 587 * v + 114 * v : ℕ) : ℚ) = 1000 * (v : ℚ) := by
      push_cast
      ring
    have h2 : (1000 : ℚ) * (v : ℚ) / 1000 = (v : ℚ) :=
      mul_div_cancel_left₀ _ (by norm_num)
    rw [h1, h2]
    exact round_natCast v
  unfold meanLuminance uniformFrame
  rw [List.map_replicate, hgray, List.sum_replicate, List.length_replicate]
  have h3 : ((n • (v : ℤ) : ℤ) : ℚ) = (n : ℚ) * (v : ℚ) := by
    rw [nsmul_eq_mul]
    push_cast
    ring
  rw [h3, mul_div_cancel_left₀ _ (Nat.cast_ne_zero.mpr hn.ne')]

/-- Scaling a uniform frame scales every channel to the same value. -/
lemma convertScaleAbs_uniform (alpha : ℚ) (n v : ℕ) :
    convertScaleAbs alpha (uniformFrame n v) =
      uniformFrame n (scaleChannel alpha v) := by
  unfold convertScaleAbs uniformFrame
  rw [List.map_replicate]

/-- An integer already at least `255` clamps to exactly `255`. -/
lemma clamp255_of_ge (z : ℤ) (h : 255 ≤ z) : clamp255 z = 255 := by
  unfold clamp255
  omega

/-- Any rational strictly above `255` rounds to an integer at least `255`. -/
lemma le_round_of_gt (x : ℚ) (h : 255 < x) : (255 : ℤ) ≤ round x := by
  rw [round_eq]
  apply Int.le_floor.mpr
  push_cast
  linarith

/-! ### Concrete fixtures used by the witness theorems -/

/-- A one-pixel dark frame (mean luminance 10). -/
def wFrameDark : Frame := uniformFrame 1 10

/-- A one-pixel mid-exposure frame (mean luminance 100). -/
def wFrameMid : Frame := uniformFrame 1 100

/-- A two-frame input at 20 fps that opens successfully. -/
def wInp : VideoInput := { openable := true, fps := 20, frames := [wFrameDark, wFrameMid] }

/-- The parameter values of the source's example driver
(`fps_analisi=5`, thresholds `80`/`180` here, factor `6/5`). -/
def wCfg : Config :=
  { fps_analisi := 5, soglia_sottoesposizione := 80,
    soglia_sovraesposizione := 180, fattore_correzione := 6 / 5 }

/-- The default parameter values of the source function's signature. -/
def defaultCfg : Config :=
  { fps_analisi := 1, soglia_sottoesposizione := 80,
    soglia_sovraesposizione := 180, fattore_correzione := 6 / 5 }

/-- Evaluation of model functions on the fixtures: the sampling interval
of the fixture run is `int(20 / 5) = 4`. -/
lemma wInterval : frame_interval wInp.fps wCfg.fps_analisi = 4 := by
  show frame_interval 20 5 = 4
  unfold frame_interval pyInt
  norm_num
  decide

/-- Evaluation helper: when the scaled channel value is exactly a natural
`d`, the saturating transform yields `min 255 d`. -/
lemma scaleChannel_eq (alpha : ℚ) (c d : ℕ) (h : alpha * (c : ℚ) = (d : ℚ)) :
    scaleChannel alpha c = min 255 d := by
  unfold scaleChannel clamp255
  rw [h, round_natCast]
  omega

/-! ### Claim theorems -/

/-- C1: for every input video of N frames, a run that reaches the frame
loop writes exactly N frames to the output, and the frame at output
position `j` is exactly the processed input frame of position `j` — no
drops, no reordering, no duplication. -/
theorem order_count_preservation (inp : VideoInput) (outOpenable : Bool) (cfg : Config)
    (h1 : inp.openable = true) (h2 : outOpenable = true)
    (h3 : cfg.fps_analisi ≠ 0) :
    (analizza_e_modifica_video inp outOpenable cfg).outputFrames.length =
        inp.frames.length ∧
    ∀ (j : ℕ) (f : Frame), inp.frames[j]? = some f →
      (analizza_e_modifica_video inp outOpenable cfg).outputFrames[j]? =
        some (processFrame cfg (frame_interval inp.fps cfg.fps_analisi) j f) := by
  rw [run_normal inp outOpenable cfg h1 h2 h3]
  refine ⟨writeLoop_length cfg _ 0 inp.frames, ?_⟩
  intro j f hf
  have h := writeLoop_getElem cfg (frame_interval inp.fps cfg.fps_analisi) inp.frames 0 j f hf
  simpa using h

/-- Witness for C1 on a concrete two-frame run. -/
theorem order_count_preservation_witness :
    (analizza_e_modifica_video wInp true wCfg).outputFrames.length =
        wInp.frames.length ∧
    (analizza_e_modifica_video wInp true wCfg).outputFrames[1]? =
      some (processFrame wCfg (frame_interval wInp.fps wCfg.fps_analisi) 1 wFrameMid) := by
  have h := order_count_preservation wInp true wCfg rfl rfl (by norm_num [wCfg])
  exact ⟨h.1, h.2 1 wFrameMid rfl⟩

/-- C2: any frame whose index is not a multiple of the sampling interval
is written to the output byte-identical to the input frame. -/
theorem passthrough_nonsampled (inp : VideoInput) (outOpenable : Bool) (cfg : Config)
    (h1 : inp.openable = true) (h2 : outOpenable = true)
    (h3 : cfg.fps_analisi ≠ 0) (j : ℕ) (f : Frame)
    (hmod : j % frame_interval inp.fps cfg.fps_analisi ≠ 0)
    (hget : inp.frames[j]? = some f) :
    (analizza_e_modifica_video inp outOpenable cfg).outputFrames[j]? = some f := by
  rw [run_normal inp outOpenable cfg h1 h2 h3]
  have h := writeLoop_getElem cfg (frame_interval inp.fps cfg.fps_analisi) inp.frames 0 j f hget
  simp only [Nat.zero_add] at h
  show (writeLoop cfg (frame_interval inp.fps cfg.fps_analisi) 0 inp.frames)[j]? = some f
  rw [h]
  simp [processFrame, hmod]

/-- Witness for C2: frame 1 of the concrete run (interval 4, 1 % 4 ≠ 0)
passes through unmodified. -/
theorem passthrough_nonsampled_witness :
    (analizza_e_modifica_video wInp true wCfg).outputFrames[1]? = some wFrameMid :=
  passthrough_nonsampled wInp true wCfg rfl rfl (by norm_num [wCfg]) 1 wFrameMid
    (by rw [wInterval]; decide) rfl

/-- C3: when a sampled frame is corrected, every pixel channel is
independently transformed to `clamp(round(gain * input), 0, 255)`, with
gain `fattore_correzione` on the brightening branch and
`1/fattore_correzione` on the darkening branch; the arithmetic saturates
at `[0,255]`, and in particular whenever
`fattore_correzione * 255 > 255` a brightened channel at full intensity
`255` clamps to exactly `255`. -/
theorem correction_scaling_formula (cfg : Config) (f : Frame) :
    (meanLuminance f < cfg.soglia_sottoesposizione →
      correctFrame cfg f = f.map fun p =>
        ⟨clamp255 (round (cfg.fattore_correzione * (p.b : ℚ))),
         clamp255 (round (cfg.fattore_correzione * (p.g : ℚ))),
         clamp255 (round (cfg.fattore_correzione * (p.r : ℚ)))⟩) ∧
    (¬ meanLuminance f < cfg.soglia_sottoesposizione →
      cfg.soglia_sovraesposizione < meanLuminance f →
      correctFrame cfg f = f.map fun p =>
        ⟨clamp255 (round (1 / cfg.fattore_correzione * (p.b : ℚ))),
         clamp255 (round (1 / cfg.fattore_correzione * (p.g : ℚ))),
         clamp255 (round (1 / cfg.fattore_correzione * (p.r : ℚ)))⟩) ∧
    ((255 : ℚ) < cfg.fattore_correzione * 255 →
      scaleChannel cfg.fattore_correzione 255 = 255) := by
  refine ⟨?_, ?_, ?_⟩
  · intro h
    simp only [correctFrame, if_pos h]
    rfl
  · intro h1 h2
    simp only [correctFrame, if_neg h1, if_pos h2]
    rfl
  · intro h
    unfold scaleChannel
    refine clamp255_of_ge _ (le_round_of_gt _ ?_)
    exact_mod_cast h

/-- Witness for C3: the dark fixture frame (luminance 10, threshold 80)
satisfies the brightening hypothesis, and `fattore_correzione = 6/5`
satisfies the saturation hypothesis. -/
theorem correction_scaling_formula_witness :
    meanLuminance wFrameDark < wCfg.soglia_sottoesposizione ∧
    correctFrame wCfg wFrameDark = wFrameDark.map (fun p =>
      ⟨clamp255 (round (wCfg.fattore_correzione * (p.b : ℚ))),
       clamp255 (round (wCfg.fattore_correzione * (p.g : ℚ))),
       clamp255 (round (wCfg.fattore_correzione * (p.r : ℚ)))⟩) ∧
    (255 : ℚ) < wCfg.fattore_correzione * 255 ∧
    scaleChannel wCfg.fattore_correzione 255 = 255 := by
  have hlum : meanLuminance wFrameDark < wCfg.soglia_sottoesposizione := by
    show meanLuminance (uniformFrame 1 10) < wCfg.soglia_sottoesposizione
    rw [meanLuminance_uniform 1 10 one_pos]
    norm_num [wCfg]
  have hsat : (255 : ℚ) < wCfg.fattore_correzione * 255 := by norm_num [wCfg]
  exact ⟨hlum, (correction_scaling_formula wCfg wFrameDark).1 hlum, hsat,
    (correction_scaling_formula wCfg wFrameDark).2.2 hsat⟩

/-- C4 counterexample: a run whose input opens but whose output sink
cannot be opened returns with the input handle NOT released — the source
returns at line 37 without calling `cap.release()`, contradicting the
claim that every exit path releases both handles. -/
theorem release_on_abort_counterexample :
    (analizza_e_modifica_video { openable := true, fps := 20, frames := [] }
        false defaultCfg).error = some PipelineError.outputOpenError ∧
    (analizza_e_modifica_video { openable := true, fps := 20, frames := [] }
        false defaultCfg).inputReleased = false ∧
    (analizza_e_modifica_video { openable := true, fps := 20, frames := [] }
        false defaultCfg).outputReleased = false := by
  decide

/-- C4 amended: the two handles are released exactly on the
normal-completion path — a run releases the input handle and the output
handle if and only if it ends without error; on the input-open abort
path, the output-open abort path and the division-by-zero abort no
release call runs before returning. -/
theorem release_iff_normal_completion (inp : VideoInput) (outOpenable : Bool)
    (cfg : Config) :
    ((analizza_e_modifica_video inp outOpenable cfg).inputReleased = true ∧
     (analizza_e_modifica_video inp outOpenable cfg).outputReleased = true) ↔
      (analizza_e_modifica_video inp outOpenable cfg).error = none := by
  rcases inp with ⟨op, fps, frames⟩
  cases op <;> cases outOpenable <;> by_cases hz : cfg.fps_analisi = 0 <;>
    simp [analizza_e_modifica_video, hz]

/-- C5: when the input cannot be opened the run reports the input-open
error and aborts before any output is created: no output file exists and
no frame is written. -/
theorem input_open_failure_no_output (inp : VideoInput) (outOpenable : Bool)
    (cfg : Config) (h : inp.openable = false) :
    (analizza_e_modifica_video inp outOpenable cfg).error =
        some PipelineError.inputOpenError ∧
    (analizza_e_modifica_video inp outOpenable cfg).outputCreated = false ∧
    (analizza_e_modifica_video inp outOpenable cfg).outputFrames = [] := by
  simp [analizza_e_modifica_video, h]

/-- Witness for C5 on a concrete unopenable input. -/
theorem input_open_failure_no_output_witness :
    (analizza_e_modifica_video { openable := false, fps := 20, frames := [] }
        true defaultCfg).error = some PipelineError.inputOpenError ∧
    (analizza_e_modifica_video { openable := false, fps := 20, frames := [] }
        true defaultCfg).outputCreated = false ∧
    (analizza_e_modifica_video { openable := false, fps := 20, frames := [] }
        true defaultCfg).outputFrames = [] :=
  input_open_failure_no_output _ true defaultCfg rfl

/-- C6: for nonnegative native frame rate and positive sample rate the
sampling interval is `floor(fps / rate)` clamped to a minimum of 1; in
particular frame rate 20 with `fps_analisi = 5` gives interval 4, and the
analysed indices of a 100-frame input are exactly 0, 4, 8, ..., 96. -/
theorem sample_interval_formula (fps rate : ℚ) (h0 : 0 ≤ fps) (h1 : 0 < rate) :
    ((frame_interval fps rate : ℕ) : ℤ) = max 1 ⌊fps / rate⌋ ∧
    frame_interval 20 5 = 4 ∧
    (List.range 100).filter (fun i => i % frame_interval 20 5 = 0) =
      (List.range 25).map (fun k => 4 * k) := by
  have h42 : frame_interval 20 5 = 4 := wInterval
  refine ⟨?_, h42, ?_⟩
  · have hq : 0 ≤ fps / rate := div_nonneg h0 h1.le
    simp only [frame_interval, pyInt, if_pos hq]
    split_ifs with hk
    · omega
    · omega
  · rw [h42]
    decide

/-- Witness for C6 at frame rate 20 and sample rate 5. -/
theorem sample_interval_formula_witness :
    ((frame_interval 20 5 : ℕ) : ℤ) = max 1 ⌊(20 : ℚ) / 5⌋ ∧
    frame_interval 20 5 = 4 ∧
    (List.range 100).filter (fun i => i % frame_interval 20 5 = 0) =
      (List.range 25).map (fun k => 4 * k) :=
  sample_interval_formula 20 5 (by norm_num) (by norm_num)

/-- C7: a uniformly-colored frame of intensity `v` measures mean luminance
exactly `v`; when `v` is strictly below the under-exposure threshold every
output channel of the corrected frame is
`clamp(round(fattore_correzione * v), 0, 255)`, and when `v` is strictly
above the over-exposure threshold every output channel is
`clamp(round(v / fattore_correzione), 0, 255)` (thresholds ordered as the
contract requires). -/
theorem uniform_frame_symmetry (cfg : Config) (n v : ℕ) (hn : 0 < n)
    (hthr : cfg.soglia_sottoesposizione < cfg.soglia_sovraesposizione) :
    meanLuminance (uniformFrame n v) = (v : ℚ) ∧
    ((v : ℚ) < cfg.soglia_sottoesposizione →
      correctFrame cfg (uniformFrame n v) =
        uniformFrame n (clamp255 (round (cfg.fattore_correzione * (v : ℚ))))) ∧
    (cfg.soglia_sovraesposizione < (v : ℚ) →
      correctFrame cfg (uniformFrame n v) =
        uniformFrame n (clamp255 (round ((v : ℚ) / cfg.fattore_correzione)))) := by
  have hm := meanLuminance_uniform n v hn
  refine ⟨hm, ?_, ?_⟩
  · intro hv
    simp only [correctFrame]
    rw [hm, if_pos hv, convertScaleAbs_uniform]
    rfl
  · intro hv
    have hnotlt : ¬ (v : ℚ) < cfg.soglia_sottoesposizione :=
      not_lt.mpr (le_of_lt (hthr.trans hv))
    simp only [correctFrame]
    rw [hm, if_neg hnotlt, if_pos hv, convertScaleAbs_uniform]
    unfold scaleChannel
    rw [one_div_mul_eq_div]

/-- Witness for C7: intensity 10 is brightened under threshold 80 and
intensity 240 is darkened over threshold 180, with factor 6/5. -/
theorem uniform_frame_symmetry_witness :
    (((10 : ℕ) : ℚ) < wCfg.soglia_sottoesposizione ∧
      correctFrame wCfg (uniformFrame 1 10) =
        uniformFrame 1 (clamp255 (round (wCfg.fattore_correzione * ((10 : ℕ) : ℚ))))) ∧
    (wCfg.soglia_sovraesposizione < ((240 : ℕ) : ℚ) ∧
      correctFrame wCfg (uniformFrame 1 240) =
        uniformFrame 1 (clamp255 (round (((240 : ℕ) : ℚ) / wCfg.fattore_correzione)))) := by
  have h10 : ((10 : ℕ) : ℚ) < wCfg.soglia_sottoesposizione := by norm_num [wCfg]
  have h240 : wCfg.soglia_sovraesposizione < ((240 : ℕ) : ℚ) := by norm_num [wCfg]
  have hthr : wCfg.soglia_sottoesposizione < wCfg.soglia_sovraesposizione := by
    norm_num [wCfg]
  exact ⟨⟨h10, (uniform_frame_symmetry wCfg 1 10 one_pos hthr).2.1 h10⟩,
    ⟨h240, (uniform_frame_symmetry wCfg 1 240 one_pos hthr).2.2 h240⟩⟩

/-- C8: a frame whose measured mean luminance lies strictly between the
two thresholds is written to the output identical to the input frame. -/
theorem well_exposed_unmodified (inp : VideoInput) (outOpenable : Bool)
    (cfg : Config) (h1 : inp.openable = true) (h2 : outOpenable = true)
    (h3 : cfg.fps_analisi ≠ 0) (j : ℕ) (f : Frame)
    (hget : inp.frames[j]? = some f)
    (hlo : cfg.soglia_sottoesposizione < meanLuminance f)
    (hhi : meanLuminance f < cfg.soglia_sovraesposizione) :
    (analizza_e_modifica_video inp outOpenable cfg).outputFrames[j]? = some f := by
  rw [run_normal inp outOpenable cfg h1 h2 h3]
  have h := writeLoop_getElem cfg (frame_interval inp.fps cfg.fps_analisi) inp.frames 0 j f hget
  simp only [Nat.zero_add] at h
  show (writeLoop cfg (frame_interval inp.fps cfg.fps_analisi) 0 inp.frames)[j]? = some f
  rw [h]
  have hcf : correctFrame cfg f = f := by
    simp only [correctFrame]
    rw [if_neg (not_lt.mpr hlo.le), if_neg (not_lt.mpr hhi.le)]
  simp [processFrame, hcf]

/-- A one-frame input whose only frame is the mid-exposure fixture. -/
def wInpMid : VideoInput := { openable := true, fps := 20, frames := [wFrameMid] }

/-- Witness for C8: the sampled frame of luminance 100 (between 80 and
180) passes through unmodified. -/
theorem well_exposed_unmodified_witness :
    (analizza_e_modifica_video wInpMid true wCfg).outputFrames[0]? = some wFrameMid :=
  well_exposed_unmodified wInpMid true wCfg rfl rfl (by norm_num [wCfg]) 0 wFrameMid rfl
    (by show wCfg.soglia_sottoesposizione < meanLuminance (uniformFrame 1 100)
        rw [meanLuminance_uniform 1 100 one_pos]
        norm_num [wCfg])
    (by show meanLuminance (uniformFrame 1 100) < wCfg.soglia_sovraesposizione
        rw [meanLuminance_uniform 1 100 one_pos]
        norm_num [wCfg])

/-- The default parameters with `fps_analisi` set to zero. -/
def zeroCfg : Config :=
  { fps_analisi := 0, soglia_sottoesposizione := 80,
    soglia_sovraesposizione := 180, fattore_correzione := 6 / 5 }

/-- C9: with `fps_analisi = 0` and both streams opened, the run fails with
the division-by-zero error of `int(fps / fps_analisi)`, after the output
file was already created and with neither handle released. -/
theorem zero_sample_rate_division_failure (inp : VideoInput) (outOpenable : Bool)
    (cfg : Config) (h1 : inp.openable = true) (h2 : outOpenable = true)
    (hz : cfg.fps_analisi = 0) :
    (analizza_e_modifica_video inp outOpenable cfg).error =
        some PipelineError.divisionByZero ∧
    (analizza_e_modifica_video inp outOpenable cfg).outputCreated = true ∧
    (analizza_e_modifica_video inp outOpenable cfg).inputReleased = false ∧
    (analizza_e_modifica_video inp outOpenable cfg).outputReleased = false := by
  simp [analizza_e_modifica_video, h1, h2, hz]

/-- Witness for C9 on a concrete run with `fps_analisi = 0`. -/
theorem zero_sample_rate_division_failure_witness :
    (analizza_e_modifica_video wInp true zeroCfg).error =
        some PipelineError.divisionByZero ∧
    (analizza_e_modifica_video wInp true zeroCfg).outputCreated = true ∧
    (analizza_e_modifica_video wInp true zeroCfg).inputReleased = false ∧
    (analizza_e_modifica_video wInp true zeroCfg).outputReleased = false :=
  zero_sample_rate_division_failure wInp true zeroCfg rfl rfl rfl

/-- C10: with the thresholds ordered as the contract requires, a sampled
frame whose measured mean luminance equals either threshold exactly is
written to the output unmodified — both exposure tests are strict, so
equality triggers no correction. -/
theorem threshold_equality_no_correction (inp : VideoInput) (outOpenable : Bool)
    (cfg : Config) (h1 : inp.openable = true) (h2 : outOpenable = true)
    (h3 : cfg.fps_analisi ≠ 0)
    (hthr : cfg.soglia_sottoesposizione ≤ cfg.soglia_sovraesposizione)
    (j : ℕ) (f : Frame) (hget : inp.frames[j]? = some f)
    (heq : meanLuminance f = cfg.soglia_sottoesposizione ∨
           meanLuminance f = cfg.soglia_sovraesposizione) :
    (analizza_e_modifica_video inp outOpenable cfg).outputFrames[j]? = some f := by
  rw [run_normal inp outOpenable cfg h1 h2 h3]
  have h := writeLoop_getElem cfg (frame_interval inp.fps cfg.fps_analisi) inp.frames 0 j f hget
  simp only [Nat.zero_add] at h
  show (writeLoop cfg (frame_interval inp.fps cfg.fps_analisi) 0 inp.frames)[j]? = some f
  rw [h]
  have hcf : correctFrame cfg f = f := by
    rcases heq with he | he
    · simp only [correctFrame]
      rw [he, if_neg (lt_irrefl _), if_neg (not_lt.mpr hthr)]
    · simp only [correctFrame]
      rw [he, if_neg (not_lt.mpr hthr), if_neg (lt_irrefl _)]
  simp [processFrame, hcf]

/-- A one-frame input whose only frame has luminance exactly 80. -/
def wInpEdge : VideoInput := { openable := true, fps := 20, frames := [uniformFrame 1 80] }

/-- Witness for C10: a sampled frame of luminance exactly 80 (equal to
the under-exposure threshold) passes through unmodified. -/
theorem threshold_equality_no_correction_witness :
    (analizza_e_modifica_video wInpEdge true wCfg).outputFrames[0]? =
      some (uniformFrame 1 80) :=
  threshold_equality_no_correction wInpEdge true wCfg rfl rfl (by norm_num [wCfg])
    (by norm_num [wCfg]) 0 (uniformFrame 1 80) rfl
    (Or.inl (by rw [meanLuminance_uniform 1 80 one_pos]; norm_num [wCfg]))
